import Mathlib

set_option maxRecDepth 20000

/-!
Verification of the document ingestion / RAG pipeline repository.

The definitions below are a shallow embedding of the repository's Python
code.  Text is modelled as `List Char`; Python `str.split()`, `str.strip()`
and `" ".join(...)` are modelled by executable functions `pySplit`,
`pyStrip` and `joinSpace`; machine integers are `Nat` (Python ints are
unbounded, and all quantities here are non-negative).
-/

namespace RagSpec

/-- Python whitespace test used by `str.split()` / `str.strip()`:
space and the ASCII control characters `\t \n \v \f \r` (codes 9..13). -/
def isSpaceB (c : Char) : Bool :=
  c == ' ' || c == '\t' || c == '\n' || c == '\r' || c.toNat == 11 || c.toNat == 12

/-- Worker for `pySplit`: `cur` holds the (reversed) current word. -/
def splitAux : List Char → List Char → List (List Char)
  | [], cur => if cur.isEmpty then [] else [cur.reverse]
  | c :: cs, cur =>
    if isSpaceB c then
      (if cur.isEmpty then splitAux cs [] else cur.reverse :: splitAux cs [])
    else splitAux cs (c :: cur)

/-- Python `text.split()` (no argument): maximal runs of non-whitespace
characters, leading/trailing/repeated whitespace discarded. -/
def pySplit (s : List Char) : List (List Char) := splitAux s []

/-- Python `s.strip()`: drop leading and trailing whitespace. -/
def pyStrip (s : List Char) : List Char :=
  ((s.dropWhile isSpaceB).reverse.dropWhile isSpaceB).reverse

/-- Python `" ".join(ws)`. -/
def joinSpace : List (List Char) → List Char
  | [] => []
  | [w] => w
  | w :: v :: t => w ++ ' ' :: joinSpace (v :: t)

/-- Number of non-whitespace characters of a string. -/
def countNonSpace (s : List Char) : Nat :=
  (s.filter (fun c => !isSpaceB c)).length

/-- One chunk record, as built in `DocumentProcessor._chunk_text`
(src/services/document_processor.py lines 151-160). -/
structure Chunk where
  chunk_id : List Char
  document_id : List Char
  filename : List Char
  text : List Char
  chunk_index : Nat
  word_count : Nat
  start_word_index : Nat
  end_word_index : Nat
deriving DecidableEq

/-- The start indices visited by Python `range(0, n, stride)` for
`stride > 0`: `0, stride, 2*stride, ...` while `< n`. -/
def windowStarts (n stride : Nat) : List Nat :=
  (List.range ((n + stride - 1) / stride)).map (fun k => stride * k)

/-- The chunk record built at loop index `i` in `_chunk_text`:
`chunk_words = words[i:i+W]`, `chunk_text = " ".join(chunk_words)`,
`chunk_id = f"{document_id}_chunk_{i//W}"`, `chunk_index = i // W`,
`word_count = len(chunk_words)`, `start_word_index = i`,
`end_word_index = min(i + W, len(words))`. -/
def mkChunk (W : Nat) (words : List (List Char)) (docId fname : List Char) (i : Nat) : Chunk :=
  let cw := (words.drop i).take W
  { chunk_id := docId ++ ("_chunk_".data ++ (Nat.repr (i / W)).data)
    document_id := docId
    filename := fname
    text := joinSpace cw
    chunk_index := i / W
    word_count := cw.length
    start_word_index := i
    end_word_index := min (i + W) words.length }

/-- The retention test of `_chunk_text` line 146: a window is kept unless
`len(chunk_text.strip()) < 50`. -/
def chunkKeep (c : Chunk) : Bool :=
  !(decide ((pyStrip c.text).length < 50))

/-- `DocumentProcessor._chunk_text` (src/services/document_processor.py
lines 134-164), with window size `W = Config.CHUNK_SIZE` and overlap
`O = Config.CHUNK_OVERLAP`: slide a window of `W` words advancing by
`W - O`, keep windows whose joined text has trimmed length at least 50. -/
def chunkText (W O : Nat) (docId fname : List Char) (text : List Char) : List Chunk :=
  let words := pySplit text
  ((windowStarts words.length (W - O)).map (mkChunk W words docId fname)).filter chunkKeep

/-- The word-offset span `[start_word_index, end_word_index)` of a chunk. -/
def chunkSpan (c : Chunk) : Nat × Nat :=
  (c.start_word_index, c.end_word_index)

/-- Size of the intersection of the word spans of two chunks. -/
def spanOverlap (c d : Chunk) : Nat :=
  min c.end_word_index d.end_word_index - max c.start_word_index d.start_word_index

/-- A retrieved chunk as formatted by `ChromaDBClient.search_similar`
(text plus the metadata fields the pipeline reads; the float distance is
not used by any claim and is omitted). -/
structure RChunk where
  text : List Char
  filename : List Char
  chunk_index : Nat
deriving DecidableEq

/-- Result dictionary of `RAGPipeline.process_query`: either
`{'success': False, 'error': e}` or `{'success': True, 'response': r,
'total_sources': k, ...}`. -/
inductive PQResult where
  | failure (error : List Char)
  | success (response : List Char) (total_sources : Nat)
deriving DecidableEq

def errQueryTooShort : List Char := "Query must be at least 3 characters long".data

def errNoRelevant : List Char := "No relevant documents found for your query".data

def errGenWrap : List Char := "An error occurred while generating the response: ".data

def genApology : List Char :=
  "I apologize, but I couldn\x27t generate a response at this time.".data

def errEmptyQuery : List Char := "Query cannot be empty".data

def errTooLongQuery : List Char := "Query is too long (maximum 1000 characters)".data

def errInappropriate : List Char := "Query contains inappropriate content".data

/-- `ChromaDBClient.search_similar` (src/database/chroma_client.py lines
72-94): the underlying collection query either returns a result list or
raises; the `except` block catches any exception, logs it, and returns
the empty list. `raw` is the outcome of the external call. -/
def search_similar (raw : Except (List Char) (List RChunk)) : List RChunk :=
  match raw with
  | Except.ok rs => rs
  | Except.error _ => []

/-- `GeminiClient.generate_response` (src/services/gemini_client.py
lines 54-80): the external `model.generate_content` call is wrapped in
the method's own `try`; a non-empty response text is stripped and
returned, an empty one is replaced by an apology string, and any
exception is caught and returned as the normal string
`'An error occurred while generating the response: ' + str(e)` — the
method never raises.  `raw` is the outcome of the external call. -/
def generate_response (raw : Except (List Char) (List Char)) : List Char :=
  match raw with
  | Except.ok t => if t.isEmpty then genApology else pyStrip t
  | Except.error e => errGenWrap ++ e

/-- `RAGPipeline.process_query` (src/services/rag_pipeline.py lines
14-66).  `searchRaw` and `genRaw` are the outcomes of the two external
calls (vector-store search and LLM generation).  Both clients catch
their external call's exceptions internally (`search_similar` returns
`[]`, `generate_response` returns an error string), so the pipeline's
outer `except` (lines 61-66) is not reachable from an external-service
failure and the generation result is packaged as a success. -/
def process_query (searchRaw : Except (List Char) (List RChunk))
    (genRaw : Except (List Char) (List Char)) (query : List Char) : PQResult :=
  if query.isEmpty || decide ((pyStrip query).length < 3) then
    PQResult.failure errQueryTooShort
  else
    let relevant := search_similar searchRaw
    if relevant.isEmpty then PQResult.failure errNoRelevant
    else PQResult.success (generate_response genRaw) relevant.length

/-- Result dictionary of `RAGPipeline.validate_query`. -/
structure VQResult where
  valid : Bool
  error : Option (List Char)
  query_length : Option Nat
deriving DecidableEq

/-- `RAGPipeline.validate_query` (src/services/rag_pipeline.py lines
95-133).  `textOK` is the outcome of the external
`gemini_client.validate_text` call. -/
def validate_query (textOK : Bool) (query : List Char) : VQResult :=
  if query.isEmpty || (pyStrip query).isEmpty then
    ⟨false, some errEmptyQuery, none⟩
  else if decide ((pyStrip query).length < 3) then
    ⟨false, some errQueryTooShort, none⟩
  else if decide (1000 < (pyStrip query).length) then
    ⟨false, some errTooLongQuery, none⟩
  else if !textOK then
    ⟨false, some errInappropriate, none⟩
  else
    ⟨true, none, some (pyStrip query).length⟩

/-- One entry of the vector-store collection: a chunk id together with
the `document_id` metadata field. -/
structure VEntry where
  chunk_id : List Char
  document_id : List Char
deriving DecidableEq

/-- Modelled from the spec: the vector store is an external managed
service ("Vector store: add(chunk id, text, metadata), query(text, k) →
ranked (text, metadata, distance), delete-by-filter").  A collection
query with a `where` metadata filter and `n_results = k` returns (the
ids of) at most `k` entries matching the filter; which `k` is ranking
dependent, modelled here as the first `k` in store order. -/
def vQueryWhere (store : List VEntry) (docId : List Char) (nResults : Nat) : List (List Char) :=
  ((store.filter (fun e => e.document_id == docId)).map VEntry.chunk_id).take nResults

/-- Modelled from the spec: `collection.delete(ids=...)` removes exactly
the entries whose id is listed. -/
def vDelete (store : List VEntry) (ids : List (List Char)) : List VEntry :=
  store.filter (fun e => !(ids.contains e.chunk_id))

/-- `ChromaDBClient.delete_document_chunks` (src/database/chroma_client.py
lines 96-112): query the collection with `where={"document_id": id}` and
`n_results=1000`, then delete the returned ids. -/
def delete_document_chunks (store : List VEntry) (docId : List Char) : List VEntry :=
  vDelete store (vQueryWhere store docId 1000)

/-- Last index of character `c` in `s` (Python `str.rfind`),
`none` when absent. -/
def rfindIdx (s : List Char) (c : Char) : Option Nat :=
  match s.reverse.findIdx? (fun x => x == c) with
  | none => none
  | some j => some (s.length - 1 - j)

/-- Extension part of Python `os.path.splitext(p)[1]` (posix rules): the
suffix from the last dot, provided that dot lies after the last `/` and
the basename has a non-dot character before it. -/
def pyExt (p : List Char) : List Char :=
  match rfindIdx p '.' with
  | none => []
  | some d =>
    let b := match rfindIdx p '/' with
      | none => 0
      | some s => s + 1
    if b ≤ d then
      if ((p.drop b).take (d - b)).any (fun c => c != '.') then p.drop d else []
    else []

/-- Python `str.lower()` (ASCII case folding suffices here). -/
def pyLower (s : List Char) : List Char := s.map Char.toLower

/-- `DocumentProcessor.supported_extensions`. -/
def supported_extensions : List (List Char) := [".pdf".data, ".docx".data, ".txt".data]

/-- `DocumentProcessor.validate_file` (src/services/document_processor.py
lines 170-187): reject unless the lowercased extension is supported and
the size is at most `50 * 1024 * 1024` bytes. -/
def validate_file (filename : List Char) (file_size : Nat) : Bool :=
  if pyLower (pyExt filename) ∈ supported_extensions then
    if 52428800 < file_size then false else true
  else false

/-- A text of `n` one-letter words separated by single spaces. -/
def exWords (n : Nat) : List Char := joinSpace (List.replicate n ['a'])

/-- Sample document id. -/
def exDoc : List Char := "doc1".data

/-- Sample filename. -/
def exFile : List Char := "f.txt".data

/-- Sample valid query. -/
def exQuery : List Char := "what is ai".data

/-- A vector store holding 1001 chunks, all owned by document `d`. -/
def store1001 : List VEntry :=
  (List.range 1001).map (fun k => VEntry.mk (Nat.repr k).data ['d'])

/-! ### Helper lemmas -/

theorem splitAux_good (s : List Char) : ∀ (cur : List Char),
    (∀ c ∈ cur, isSpaceB c = false) →
    ∀ w ∈ splitAux s cur, w ≠ [] ∧ ∀ c ∈ w, isSpaceB c = false := by
  induction s with
  | nil =>
    intro cur hcur w hw
    by_cases hc : cur.isEmpty
    · simp [splitAux, hc] at hw
    · simp [splitAux, hc] at hw
      subst hw
      refine ⟨?_, ?_⟩
      · simp [List.reverse_eq_nil_iff]
        exact fun h => by simp [h] at hc
      · intro c hcmem
        exact hcur c (List.mem_reverse.mp hcmem)
  | cons a t ih =>
    intro cur hcur w hw
    by_cases ha : isSpaceB a
    · by_cases hc : cur.isEmpty
      · simp [splitAux, ha, hc] at hw
        exact ih [] (by simp) w hw
      · simp [splitAux, ha, hc] at hw
        rcases hw with hw | hw
        · subst hw
          refine ⟨?_, ?_⟩
          · simp [List.reverse_eq_nil_iff]
            exact fun h => by simp [h] at hc
          · intro c hcmem
            exact hcur c (List.mem_reverse.mp hcmem)
        · exact ih [] (by simp) w hw
    · simp [splitAux, ha] at hw
      refine ih (a :: cur) ?_ w hw
      intro c hcmem
      rcases List.mem_cons.mp hcmem with h | h
      · subst h; simpa using ha
      · exact hcur c h

/-- Every word produced by `pySplit` is non-empty and whitespace-free. -/
theorem pySplit_good (s : List Char) :
    ∀ w ∈ pySplit s, w ≠ [] ∧ ∀ c ∈ w, isSpaceB c = false :=
  splitAux_good s [] (by simp)

theorem countNonSpace_le_length (s : List Char) : countNonSpace s ≤ s.length :=
  List.length_filter_le _ _

theorem filter_dropWhile_space (s : List Char) :
    (s.dropWhile isSpaceB).filter (fun c => !isSpaceB c) =
      s.filter (fun c => !isSpaceB c) := by
  induction s with
  | nil => simp
  | cons a t ih =>
    by_cases ha : isSpaceB a
    · simp [List.dropWhile_cons, ha, List.filter_cons, ih]
    · simp [List.dropWhile_cons, ha, List.filter_cons]

theorem countNonSpace_dropWhile (s : List Char) :
    countNonSpace (s.dropWhile isSpaceB) = countNonSpace s := by
  simp [countNonSpace, filter_dropWhile_space]

theorem countNonSpace_reverse (s : List Char) :
    countNonSpace s.reverse = countNonSpace s := by
  simp [countNonSpace, List.filter_reverse]

theorem countNonSpace_pyStrip (s : List Char) :
    countNonSpace (pyStrip s) = countNonSpace s := by
  unfold pyStrip
  rw [countNonSpace_reverse, countNonSpace_dropWhile, countNonSpace_reverse,
    countNonSpace_dropWhile]

theorem countNonSpace_le_pyStrip_length (s : List Char) :
    countNonSpace s ≤ (pyStrip s).length := by
  rw [← countNonSpace_pyStrip s]
  exact countNonSpace_le_length _

theorem countNonSpace_append (s t : List Char) :
    countNonSpace (s ++ t) = countNonSpace s + countNonSpace t := by
  simp [countNonSpace, List.filter_append]

theorem countNonSpace_joinSpace (ws : List (List Char)) :
    countNonSpace (joinSpace ws) = (ws.map countNonSpace).sum := by
  induction ws with
  | nil => simp [joinSpace, countNonSpace]
  | cons w t ih =>
    cases t with
    | nil => simp [joinSpace]
    | cons v u =>
      have : joinSpace (w :: v :: u) = w ++ ' ' :: joinSpace (v :: u) := rfl
      rw [this]
      have hsp : countNonSpace (' ' :: joinSpace (v :: u)) =
          countNonSpace (joinSpace (v :: u)) := by
        simp [countNonSpace, List.filter_cons, isSpaceB]
      rw [countNonSpace_append, hsp, ih]
      simp

theorem length_le_sum_of_one_le (l : List Nat) (h : ∀ x ∈ l, 1 ≤ x) :
    l.length ≤ l.sum := by
  induction l with
  | nil => simp
  | cons a t ih =>
    simp only [List.length_cons, List.sum_cons]
    have ha := h a (by simp)
    have ht := ih (fun x hx => h x (List.mem_cons_of_mem a hx))
    omega

/-- A window of at least 50 words, each non-empty and whitespace-free,
always passes the minimum-length test. -/
theorem window_retained (ws : List (List Char))
    (hgood : ∀ w ∈ ws, w ≠ [] ∧ ∀ c ∈ w, isSpaceB c = false)
    (hlen : 50 ≤ ws.length) :
    50 ≤ (pyStrip (joinSpace ws)).length := by
  have h1 : ∀ w ∈ ws, 1 ≤ countNonSpace w := by
    intro w hw
    obtain ⟨hne, hns⟩ := hgood w hw
    have : w.filter (fun c => !isSpaceB c) = w :=
      List.filter_eq_self.mpr (fun c hc => by simp [hns c hc])
    simp [countNonSpace, this]
    exact List.length_pos.mpr hne
  have h2 : ws.length ≤ (ws.map countNonSpace).sum := by
    have := length_le_sum_of_one_le (ws.map countNonSpace) (by
      intro x hx
      obtain ⟨w, hw, rfl⟩ := List.mem_map.mp hx
      exact h1 w hw)
    simpa using this
  calc 50 ≤ ws.length := hlen
    _ ≤ (ws.map countNonSpace).sum := h2
    _ = countNonSpace (joinSpace ws) := (countNonSpace_joinSpace ws).symm
    _ ≤ (pyStrip (joinSpace ws)).length := countNonSpace_le_pyStrip_length _

theorem mem_windowStarts_lt {n stride i : Nat} (hs : 0 < stride)
    (hi : i ∈ windowStarts n stride) : i < n := by
  obtain ⟨k, hk, rfl⟩ := List.mem_map.mp hi
  have hk2 : k < (n + stride - 1) / stride := List.mem_range.mp hk
  have h3 : (k + 1) * stride ≤ n + stride - 1 :=
    (Nat.le_div_iff_mul_le hs).mp hk2
  rw [Nat.succ_mul] at h3
  rw [Nat.mul_comm]
  generalize k * stride = t at h3 ⊢
  omega

/-- For the configured stride 800, the window count characterisation. -/
theorem lt_numWindows_iff (k n : Nat) : k < (n + 799) / 800 ↔ 800 * k < n := by
  omega

/-- A filter whose predicate holds on every element except possibly the
last one keeps either the whole list or the whole list minus its last
element. -/
theorem filter_keep_init {α : Type} (p : α → Bool) :
    ∀ (l : List α), (∀ x ∈ l.dropLast, p x = true) →
      l.filter p = l ∨ l.filter p = l.dropLast := by
  intro l
  induction l with
  | nil => intro _; left; simp
  | cons a t ih =>
    intro h
    cases t with
    | nil =>
      by_cases hp : p a
      · left; simp [List.filter_cons, hp]
      · right; simp [List.filter_cons, hp, List.dropLast]
    | cons b u =>
      have hdl : (a :: b :: u).dropLast = a :: (b :: u).dropLast := rfl
      have hpa : p a = true := by
        apply h
        rw [hdl]
        exact List.mem_cons_self _ _
      have ht : ∀ x ∈ (b :: u).dropLast, p x = true := by
        intro x hx
        apply h
        rw [hdl]
        exact List.mem_cons_of_mem _ hx
      rcases ih ht with hcase | hcase
      · left; simp [List.filter_cons, hpa, hcase]
      · right
        rw [hdl]
        simp [List.filter_cons, hpa, hcase]

theorem candidates_dropLast (g : Nat → Chunk) (m : Nat) :
    ((List.range m).map g).dropLast = (List.range (m - 1)).map g := by
  cases m with
  | zero => simp
  | succ m0 =>
    rw [List.range_succ, List.map_append]
    simp

/-- `chunkText` at the configured `W = 1000`, `O = 200`, written as a
filter over the list of candidate windows. -/
theorem chunkText_eq_filter (dId fn text : List Char) :
    chunkText 1000 200 dId fn text =
      ((List.range (((pySplit text).length + 799) / 800)).map
        (fun k => mkChunk 1000 (pySplit text) dId fn (800 * k))).filter chunkKeep := by
  simp only [chunkText, windowStarts, List.map_map]
  norm_num [Function.comp]
  rfl

/-- `chunkText 1000 200` returns the first `M` candidate windows for some
`M` at most the total window count: the filter can drop only the last
window, because any earlier window spans more than 800 words. -/
theorem chunkText_repr (dId fn text : List Char) :
    ∃ M, M ≤ ((pySplit text).length + 799) / 800 ∧
      chunkText 1000 200 dId fn text =
        (List.range M).map (fun k => mkChunk 1000 (pySplit text) dId fn (800 * k)) := by
  set words := pySplit text with hwords
  set n := words.length with hn
  set m := (n + 799) / 800 with hm
  set g : Nat → Chunk := fun k => mkChunk 1000 words dId fn (800 * k) with hg
  have hcand : chunkText 1000 200 dId fn text =
      ((List.range m).map g).filter chunkKeep := chunkText_eq_filter dId fn text
  have hinit : ∀ x ∈ ((List.range m).map g).dropLast, chunkKeep x = true := by
    rw [candidates_dropLast]
    intro x hx
    obtain ⟨k, hk, rfl⟩ := List.mem_map.mp hx
    have hkm : k < m - 1 := List.mem_range.mp hk
    have hk1 : 800 * (k + 1) < n := by
      have : k + 1 < m := by omega
      rw [hm] at this
      exact (lt_numWindows_iff (k + 1) n).mp this
    -- the window at 800 * k spans at least 801 words
    have hcw : ((words.drop (800 * k)).take 1000).length = min 1000 (n - 800 * k) := by
      rw [List.length_take, List.length_drop]
    have hbig : 50 ≤ ((words.drop (800 * k)).take 1000).length := by
      rw [hcw]; omega
    have hgood : ∀ w ∈ (words.drop (800 * k)).take 1000,
        w ≠ [] ∧ ∀ c ∈ w, isSpaceB c = false := by
      intro w hw
      exact pySplit_good text w (List.mem_of_mem_drop (List.mem_of_mem_take hw))
    have hret := window_retained _ hgood hbig
    simp only [hg, mkChunk, chunkKeep]
    simp only [Bool.not_eq_eq_eq_not, Bool.not_true, decide_eq_false_iff_not]
    omega
  rcases filter_keep_init chunkKeep ((List.range m).map g) hinit with hcase | hcase
  · exact ⟨m, le_refl m, by rw [hcand, hcase]⟩
  · refine ⟨m - 1, by omega, ?_⟩
    rw [hcand, hcase, candidates_dropLast]

/-- `exWords n` splits back into `n` one-letter words. -/
theorem pySplit_exWords : ∀ n : Nat, pySplit (exWords n) = List.replicate n ['a']
  | 0 => rfl
  | 1 => rfl
  | n + 2 => by
    have ih := pySplit_exWords (n + 1)
    have hrep : exWords (n + 2) = 'a' :: ' ' :: exWords (n + 1) := rfl
    have ha : isSpaceB 'a' = false := by decide
    have hsp : isSpaceB ' ' = true := by decide
    simp only [pySplit] at ih
    rw [hrep]
    show splitAux ('a' :: ' ' :: exWords (n + 1)) [] = _
    simp only [splitAux, ha, hsp, if_false, if_true, List.isEmpty_nil, List.isEmpty_cons,
      List.reverse_cons, List.reverse_nil, List.nil_append, ih]
    rfl

/-- On any 2500-word text, `chunkText 1000 200` yields the four windows
starting at 0, 800, 1600 and 2400 (all are retained: each spans at least
100 non-empty words). -/
theorem chunkText_2500_spans (dId fn text : List Char)
    (h : (pySplit text).length = 2500) :
    (chunkText 1000 200 dId fn text).map chunkSpan =
      [(0, 1000), (800, 1800), (1600, 2500), (2400, 2500)] := by
  rw [chunkText_eq_filter, h]
  norm_num
  have hall : ∀ x ∈ (List.range 4).map
      (fun k => mkChunk 1000 (pySplit text) dId fn (800 * k)), chunkKeep x = true := by
    intro x hx
    obtain ⟨k, hk, rfl⟩ := List.mem_map.mp hx
    have hk4 : k < 4 := List.mem_range.mp hk
    have hbig : 50 ≤ (((pySplit text).drop (800 * k)).take 1000).length := by
      rw [List.length_take, List.length_drop, h]
      omega
    have hgood : ∀ w ∈ ((pySplit text).drop (800 * k)).take 1000,
        w ≠ [] ∧ ∀ c ∈ w, isSpaceB c = false :=
      fun w hw => pySplit_good text w (List.mem_of_mem_drop (List.mem_of_mem_take hw))
    have hret := window_retained _ hgood hbig
    simp only [mkChunk, chunkKeep, Bool.not_eq_eq_eq_not, Bool.not_true,
      decide_eq_false_iff_not]
    omega
  rw [List.filter_eq_self.mpr hall]
  have h4 : List.range 4 = [0, 1, 2, 3] := rfl
  rw [h4]
  simp [mkChunk, chunkSpan, h]

/-- On a text of at most 800 words, `chunkText 1000 200` offers a single
candidate window covering the whole word list, retained exactly when the
joined trimmed text has length at least 50. -/
theorem chunkText_le800_length (dId fn text : List Char)
    (h : (pySplit text).length ≤ 800) :
    (chunkText 1000 200 dId fn text).length =
      if 50 ≤ (pyStrip (joinSpace (pySplit text))).length then 1 else 0 := by
  rw [chunkText_eq_filter]
  by_cases h0 : (pySplit text).length = 0
  · have hm0 : ((pySplit text).length + 799) / 800 = 0 := by omega
    rw [hm0]
    have hwnil : pySplit text = [] := List.length_eq_zero.mp h0
    rw [hwnil]
    have : pyStrip (joinSpace ([] : List (List Char))) = [] := rfl
    simp [this]
  · have hm1 : ((pySplit text).length + 799) / 800 = 1 := by omega
    rw [hm1]
    have h1 : List.range 1 = [0] := rfl
    rw [h1]
    simp only [List.map_cons, List.map_nil, Nat.mul_zero]
    have htext : (mkChunk 1000 (pySplit text) dId fn 0).text =
        joinSpace (pySplit text) := by
      simp only [mkChunk, List.drop_zero]
      rw [List.take_of_length_le (by omega)]
    by_cases h50 : 50 ≤ (pyStrip (joinSpace (pySplit text))).length
    · have hkeep : chunkKeep (mkChunk 1000 (pySplit text) dId fn 0) = true := by
        simp only [chunkKeep, htext, Bool.not_eq_eq_eq_not, Bool.not_true,
          decide_eq_false_iff_not]
        omega
      simp [List.filter, hkeep, h50]
    · have hkeep : chunkKeep (mkChunk 1000 (pySplit text) dId fn 0) = false := by
        simp only [chunkKeep, htext, Bool.not_eq_eq_eq_not, Bool.not_false,
          decide_eq_true_eq]
        omega
      simp [List.filter, hkeep, h50]

/-! ### Claim theorems -/

/-- C1 (counterexample): on a concrete 2500-word text, the output of the
chunking function with W=1000, O=200 does not consist of the three spans
[0,1000), [800,1800), [1600,2500) claimed by the spec: a fourth window
[2400,2500) is produced as well, because `range(0, 2500, 800)` also
visits 2400. -/
theorem C1_counterexample :
    (pySplit (exWords 2500)).length = 2500 ∧
      (chunkText 1000 200 exDoc exFile (exWords 2500)).map chunkSpan ≠
        [(0, 1000), (800, 1800), (1600, 2500)] := by
  have hlen : (pySplit (exWords 2500)).length = 2500 := by
    rw [pySplit_exWords, List.length_replicate]
  refine ⟨hlen, ?_⟩
  rw [chunkText_2500_spans exDoc exFile (exWords 2500) hlen]
  decide

/-- C1 (amended): for chunking parameters W=1000 and O=200, running the
chunking function on a text of exactly 2500 words yields exactly 4
chunks, with word-offset spans [0,1000), [800,1800), [1600,2500) and
[2400,2500). -/
theorem C1_amended (dId fn text : List Char) (h : (pySplit text).length = 2500) :
    (chunkText 1000 200 dId fn text).map chunkSpan =
      [(0, 1000), (800, 1800), (1600, 2500), (2400, 2500)] :=
  chunkText_2500_spans dId fn text h

/-- C1 (witness): the amended claim instantiated on a concrete 2500-word
text. -/
theorem C1_amended_witness :
    (pySplit (exWords 2500)).length = 2500 ∧
      (chunkText 1000 200 exDoc exFile (exWords 2500)).map chunkSpan =
        [(0, 1000), (800, 1800), (1600, 2500), (2400, 2500)] :=
  ⟨by rw [pySplit_exWords, List.length_replicate],
    C1_amended exDoc exFile (exWords 2500) (by rw [pySplit_exWords, List.length_replicate])⟩

/-- C2 (counterexample): a concrete 900-word text has fewer than W=1000
words and a joined trimmed text far above the 50-character minimum, yet
the chunking function returns 2 chunks, not 1: the loop also visits word
offset 800. -/
theorem C2_counterexample :
    (pySplit (exWords 900)).length < 1000 ∧
      50 ≤ (pyStrip (joinSpace (pySplit (exWords 900)))).length ∧
      (chunkText 1000 200 exDoc exFile (exWords 900)).length ≠ 1 := by
  refine ⟨by rw [pySplit_exWords, List.length_replicate]; omega, ?_, ?_⟩
  · decide
  · decide

/-- C2 (amended): for every input text containing at most W−O = 800
words, the chunking function returns exactly one chunk when the joined,
trimmed text meets the 50-character minimum length, and zero chunks
otherwise. -/
theorem C2_amended (dId fn text : List Char) (h : (pySplit text).length ≤ 800) :
    (chunkText 1000 200 dId fn text).length =
      if 50 ≤ (pyStrip (joinSpace (pySplit text))).length then 1 else 0 :=
  chunkText_le800_length dId fn text h

/-- C2 (witness): the amended claim instantiated on a concrete 100-word
text (one retained chunk). -/
theorem C2_amended_witness :
    (pySplit (exWords 100)).length ≤ 800 ∧
      (chunkText 1000 200 exDoc exFile (exWords 100)).length =
        (if 50 ≤ (pyStrip (joinSpace (pySplit (exWords 100)))).length then 1 else 0) :=
  ⟨by rw [pySplit_exWords, List.length_replicate]; omega,
    C2_amended exDoc exFile (exWords 100) (by rw [pySplit_exWords, List.length_replicate]; omega)⟩

/-- C3: for every text, any two consecutive chunks in the output of the
chunking function (W=1000, O=200) have word spans overlapping by exactly
O = 200 words, except possibly at the final chunk, which may be shorter
than W = 1000 words. -/
theorem C3_consecutive_overlap (dId fn text : List Char) (k : Nat)
    (h : k + 1 < (chunkText 1000 200 dId fn text).length) :
    spanOverlap ((chunkText 1000 200 dId fn text).get ⟨k, Nat.lt_of_succ_lt h⟩)
        ((chunkText 1000 200 dId fn text).get ⟨k + 1, h⟩) = 200 ∨
      (k + 1 + 1 = (chunkText 1000 200 dId fn text).length ∧
        ((chunkText 1000 200 dId fn text).get ⟨k + 1, h⟩).word_count < 1000) := by
  obtain ⟨M, hM, hrepr⟩ := chunkText_repr dId fn text
  have hlen : (chunkText 1000 200 dId fn text).length = M := by
    rw [hrepr, List.length_map, List.length_range]
  have hkM : k + 1 < M := by rw [← hlen]; exact h
  have hget : ∀ (j : Nat) (hj : j < (chunkText 1000 200 dId fn text).length),
      (chunkText 1000 200 dId fn text).get ⟨j, hj⟩ =
        mkChunk 1000 (pySplit text) dId fn (800 * j) := by
    intro j hj
    simp only [List.get_eq_getElem]
    simp only [hrepr, List.getElem_map, List.getElem_range]
  rw [hget k (Nat.lt_of_succ_lt h), hget (k + 1) h, hlen]
  simp only [mkChunk, spanOverlap, List.length_take, List.length_drop]
  omega

/-- C3 (witness): on a concrete 900-word text, the pair of consecutive
chunks at positions 0 and 1 satisfies the invariant (here via the
final-chunk exception: the spans are [0,900) and [800,900)). -/
theorem C3_consecutive_overlap_witness :
    0 + 1 < (chunkText 1000 200 exDoc exFile (exWords 900)).length ∧
      (spanOverlap ((chunkText 1000 200 exDoc exFile (exWords 900)).get
            ⟨0, Nat.lt_of_succ_lt (by decide)⟩)
          ((chunkText 1000 200 exDoc exFile (exWords 900)).get ⟨0 + 1, by decide⟩) = 200 ∨
        (0 + 1 + 1 = (chunkText 1000 200 exDoc exFile (exWords 900)).length ∧
          ((chunkText 1000 200 exDoc exFile (exWords 900)).get
            ⟨0 + 1, by decide⟩).word_count < 1000)) :=
  ⟨by decide, C3_consecutive_overlap exDoc exFile (exWords 900) 0 (by decide)⟩

/-- C4 (code bug): on a concrete 900-word text, both retained chunks
record chunk_index = 0 (the code computes `start // CHUNK_SIZE`, not the
0-based output sequence index) and both carry the identifier
"doc1_chunk_0", so chunk identifiers are not distinct within the
document. -/
theorem C4_chunk_index_bug :
    ((chunkText 1000 200 exDoc exFile (exWords 900)).map
        (fun c => c.chunk_index)) = [0, 0] ∧
      ((chunkText 1000 200 exDoc exFile (exWords 900)).map
        (fun c => c.chunk_id)) = ["doc1_chunk_0".data, "doc1_chunk_0".data] := by
  constructor
  · decide
  · decide

/-- C5: every chunk in the chunking function's output has trimmed text
length of at least 50 characters; windows whose joined text has trimmed
length below 50 are excluded. -/
theorem C5_min_chunk_length (W O : Nat) (dId fn text : List Char) (c : Chunk)
    (hc : c ∈ chunkText W O dId fn text) : 50 ≤ (pyStrip c.text).length := by
  simp only [chunkText] at hc
  have hk := (List.mem_filter.mp hc).2
  simp only [chunkKeep, Bool.not_eq_eq_eq_not, Bool.not_true,
    decide_eq_false_iff_not] at hk
  omega

/-- C5 (witness): the single chunk produced from a concrete 100-word
text has trimmed length at least 50. -/
theorem C5_min_chunk_length_witness :
    ((chunkText 1000 200 exDoc exFile (exWords 100)).get ⟨0, by decide⟩) ∈
        chunkText 1000 200 exDoc exFile (exWords 100) ∧
      50 ≤ (pyStrip ((chunkText 1000 200 exDoc exFile
        (exWords 100)).get ⟨0, by decide⟩).text).length :=
  ⟨List.get_mem _ _ _,
    C5_min_chunk_length 1000 200 exDoc exFile (exWords 100) _ (List.get_mem _ _ _)⟩

/-- C6: a query that is empty or whose trimmed length is below 3 makes
`process_query` return the failure result with the descriptive error,
whatever the outcomes of the retrieval and generation calls (so neither
is consulted), and `validate_query` marks it invalid. -/
theorem C6_short_query_rejected (sr : Except (List Char) (List RChunk))
    (gr : Except (List Char) (List Char)) (vt : Bool) (q : List Char)
    (h : q = [] ∨ (pyStrip q).length < 3) :
    process_query sr gr q = PQResult.failure errQueryTooShort ∧
      (validate_query vt q).valid = false := by
  have hcond : (q.isEmpty || decide ((pyStrip q).length < 3)) = true := by
    rcases h with h | h
    · simp [h]
    · simp [h]
  constructor
  · simp [process_query, hcond]
  · rcases h with h | h
    · simp [validate_query, h]
    · by_cases he : (q.isEmpty || (pyStrip q).isEmpty) = true
      · simp [validate_query, he]
      · simp [validate_query, he, h]

/-- C6 (witness): the query " a " (trimmed length 1) is rejected by both
entry points. -/
theorem C6_short_query_rejected_witness :
    process_query (Except.ok []) (Except.ok []) " a ".data =
        PQResult.failure errQueryTooShort ∧
      (validate_query true " a ".data).valid = false :=
  C6_short_query_rejected (Except.ok []) (Except.ok []) true " a ".data
    (Or.inr (by decide))

/-- C7 (code bug): a store holding 1001 chunks of one document keeps at
least one matching chunk after `delete_document_chunks`, because the
deletion queries the store with `n_results=1000` and deletes only the
ids returned; the docstring and spec say all matching chunks are
removed. -/
theorem C7_delete_cap_bug :
    ∃ e ∈ delete_document_chunks store1001 ['d'], e.document_id = ['d'] := by
  refine ⟨VEntry.mk "1000".data ['d'], ?_, rfl⟩
  show VEntry.mk "1000".data ['d'] ∈
    vDelete store1001 (vQueryWhere store1001 ['d'] 1000)
  rw [vDelete, List.mem_filter]
  constructor
  · decide
  · decide

/-- C8 (counterexample): on a concrete valid query, a vector-store
search failure (exception) produces exactly the same outcome as a
successful search with zero results — the failure result
"No relevant documents found for your query" — rather than being
reported as an upstream failure; and a generation-service failure is
not surfaced as a failure result at all: the pipeline returns
success=true with the generation client's error message as the
response. -/
theorem C8_counterexample :
    process_query (Except.error "connection refused".data)
        (Except.ok "answer".data) exQuery = PQResult.failure errNoRelevant ∧
      process_query (Except.ok []) (Except.ok "answer".data) exQuery =
        PQResult.failure errNoRelevant ∧
      process_query (Except.ok [RChunk.mk "ctx".data "f.txt".data 0])
          (Except.error "boom".data) exQuery =
        PQResult.success (errGenWrap ++ "boom".data) 1 := by
  refine ⟨by decide, by decide, by decide⟩

/-- C8 (amended): no external-service failure is retried or aborts the
query, but neither is surfaced as an upstream failure: a vector-store
search failure is caught inside the vector-store client, converted to
an empty result list, and reported as the failure result
"No relevant documents found for your query", indistinguishable from an
empty search; a generation-service failure is caught inside the
generation client, and the pipeline returns a success result whose
response text is the generation client's error message
"An error occurred while generating the response: <exception>". -/
theorem C8_amended (q e : List Char) (gr : Except (List Char) (List Char))
    (rs : List RChunk) (hq : q.isEmpty = false) (h3 : 3 ≤ (pyStrip q).length)
    (hrs : rs ≠ []) :
    process_query (Except.error e) gr q = PQResult.failure errNoRelevant ∧
      process_query (Except.ok rs) (Except.error e) q =
        PQResult.success (errGenWrap ++ e) rs.length := by
  have hcond : (q.isEmpty || decide ((pyStrip q).length < 3)) = false := by
    simp [hq]
    omega
  constructor
  · simp [process_query, hcond, search_similar]
  · simp [process_query, hcond, search_similar, generate_response, hrs]

/-- C8 (witness): the amended claim instantiated on a concrete query,
exception message and retrieved chunk. -/
theorem C8_amended_witness :
    process_query (Except.error "boom".data) (Except.ok "answer".data) exQuery =
        PQResult.failure errNoRelevant ∧
      process_query (Except.ok [RChunk.mk "ctx".data "f.txt".data 0])
          (Except.error "boom".data) exQuery =
        PQResult.success (errGenWrap ++ "boom".data) 1 :=
  C8_amended exQuery "boom".data (Except.ok "answer".data)
    [RChunk.mk "ctx".data "f.txt".data 0] (by decide) (by decide) (by decide)

/-- C9: `validate_file` accepts exactly the filenames whose lowercased
extension is .pdf, .docx or .txt with size at most 52428800 bytes. -/
theorem C9_validate_file (f : List Char) (sz : Nat) :
    validate_file f sz = true ↔
      ((pyLower (pyExt f) = ".pdf".data ∨ pyLower (pyExt f) = ".docx".data ∨
        pyLower (pyExt f) = ".txt".data) ∧ sz ≤ 52428800) := by
  have hmem : (pyLower (pyExt f) ∈ supported_extensions) ↔
      (pyLower (pyExt f) = ".pdf".data ∨ pyLower (pyExt f) = ".docx".data ∨
        pyLower (pyExt f) = ".txt".data) := by
    simp [supported_extensions]
  unfold validate_file
  split
  next hm =>
    split
    next hsz =>
      simp only [Bool.false_eq_true, false_iff]
      rintro ⟨-, hle⟩
      omega
    next hsz =>
      simp only [true_iff]
      exact ⟨hmem.mp hm, by omega⟩
  next hm =>
    simp only [Bool.false_eq_true, false_iff]
    rintro ⟨hd, -⟩
    exact hm (hmem.mpr hd)

/-- C9 (witness): "Report.PDF" of one kilobyte is accepted. -/
theorem C9_validate_file_witness : validate_file "Report.PDF".data 1024 = true :=
  (C9_validate_file "Report.PDF".data 1024).mpr (by decide)

/-- C10: every chunk produced by the chunking function starts at a
multiple of the stride W−O, ends at `min(start + W, n)` where n is the
word count of the text, has `word_count = end − start`, and never spans
past the end of the text. -/
theorem C10_chunk_fields (W O : Nat) (dId fn text : List Char) (c : Chunk)
    (hWO : O < W) (hc : c ∈ chunkText W O dId fn text) :
    (∃ k, c.start_word_index = (W - O) * k) ∧
      c.end_word_index = min (c.start_word_index + W) (pySplit text).length ∧
      c.word_count = c.end_word_index - c.start_word_index ∧
      c.end_word_index ≤ (pySplit text).length := by
  simp only [chunkText] at hc
  have hmem := (List.mem_filter.mp hc).1
  obtain ⟨i, hi, rfl⟩ := List.mem_map.mp hmem
  have hin : i < (pySplit text).length := mem_windowStarts_lt (by omega) hi
  obtain ⟨str, hstr, hik⟩ := List.mem_map.mp hi
  refine ⟨⟨str, hik.symm⟩, ?_, ?_, ?_⟩
  · simp [mkChunk]
  · simp only [mkChunk, List.length_take, List.length_drop]
    omega
  · simp only [mkChunk]
    omega

/-- C10 (witness): the field invariants instantiated on the chunk
produced from a concrete 100-word text. -/
theorem C10_chunk_fields_witness :
    (∃ k, ((chunkText 1000 200 exDoc exFile (exWords 100)).get
        ⟨0, by decide⟩).start_word_index = (1000 - 200) * k) ∧
      ((chunkText 1000 200 exDoc exFile (exWords 100)).get
          ⟨0, by decide⟩).end_word_index =
        min (((chunkText 1000 200 exDoc exFile (exWords 100)).get
          ⟨0, by decide⟩).start_word_index + 1000) (pySplit (exWords 100)).length ∧
      ((chunkText 1000 200 exDoc exFile (exWords 100)).get
          ⟨0, by decide⟩).word_count =
        ((chunkText 1000 200 exDoc exFile (exWords 100)).get
            ⟨0, by decide⟩).end_word_index -
          ((chunkText 1000 200 exDoc exFile (exWords 100)).get
            ⟨0, by decide⟩).start_word_index ∧
      ((chunkText 1000 200 exDoc exFile (exWords 100)).get
          ⟨0, by decide⟩).end_word_index ≤ (pySplit (exWords 100)).length :=
  C10_chunk_fields 1000 200 exDoc exFile (exWords 100) _ (by decide)
    (List.get_mem _ _ _)

end RagSpec
